import Mathlib

/-!
Verification of the TinyLink frame codec and byte-level synchronization
state machine (python-tinylink). The definitions below are a shallow
embedding of `tinylink/link.py`, `tinylink/utils.py` and
`tinylink/consts.py`; bytes are modelled as `Nat`, byte strings as
`List Nat`, and Python exceptions as `Except PyError`. A separate
`legacy` namespace embeds the historical module `tinylink/__init__.py`.
-/

namespace TinyLink

/-- Python exceptions that the modelled code can raise. -/
inductive PyError
  | valueError
  | attributeError
deriving DecidableEq, Repr

/-- consts.PREAMBLE: used to synchronize a frame. -/
def PREAMBLE : Nat := 0xAA55AA55

/-- Endianness selector: consts.LITTLE_ENDIAN / consts.BIG_ENDIAN. -/
inductive Endianness
  | little
  | big
deriving DecidableEq, Repr

/-- consts.LEN_PREAMBLE. -/
def LEN_PREAMBLE : Nat := 4
/-- consts.LEN_FLAGS. -/
def LEN_FLAGS : Nat := 2
/-- consts.LEN_LENGTH. -/
def LEN_LENGTH : Nat := 2
/-- consts.LEN_XOR. -/
def LEN_XOR : Nat := 1
/-- consts.LEN_CRC. -/
def LEN_CRC : Nat := 4
/-- consts.LEN_HEADER = LEN_FLAGS + LEN_LENGTH + LEN_XOR. -/
def LEN_HEADER : Nat := LEN_FLAGS + LEN_LENGTH + LEN_XOR
/-- consts.LEN_BODY = LEN_CRC. -/
def LEN_BODY : Nat := LEN_CRC

/-- Modelled from the spec: `consts.FLAG` is referenced by `link.py` and the
tests but is missing from `src/tinylink/consts.py`. The spec fixes the
marker byte to 0xAA, the first byte of the preamble pattern. -/
def FLAG : Nat := 0xAA

/-- Modelled from the spec: `consts.ESCAPE` is referenced by `link.py` but is
missing from `src/tinylink/consts.py`. The spec fixes the escape byte to
0x1B. -/
def ESCAPE : Nat := 0x1B

/-- utils.CRC32_POLYNOMIAL. -/
def CRC32_POLYNOMIAL : Nat := 0xEDB88320

/-- utils.CRC32_INITIAL. -/
def CRC32_INITIAL : Nat := 0

/-- The `for _ in range(8)` loop inside `utils.crc32.crc32_value`: repeatedly
shift right by one, XOR-ing the polynomial when the low bit is set. -/
def crc32_loop : Nat → Nat → Nat
  | 0, crc => crc
  | n + 1, crc =>
      crc32_loop n (if crc &&& 0x01 = 1 then (crc >>> 1) ^^^ CRC32_POLYNOMIAL else crc >>> 1)

/-- Embeds `utils.crc32.crc32_value`: combine the running CRC `result` with one input
byte `c`. -/
def crc32_value (result c : Nat) : Nat :=
  let temp := (result >>> 8) &&& 0x00FFFFFF
  let crc := (result ^^^ c) &&& 0xFF
  temp ^^^ crc32_loop 8 crc

/-- Embeds `utils.crc32`: fold `crc32_value` over the buffer, starting from
CRC32_INITIAL. -/
def crc32 (buf : List Nat) : Nat :=
  buf.foldl crc32_value CRC32_INITIAL

/-- Embeds `struct.pack(endianness + "H", n)`: two bytes in the configured
endianness (values are reduced mod 256 per byte; the Python call is only
ever made with values below 2^16). -/
def pack16 (e : Endianness) (n : Nat) : List Nat :=
  match e with
  | .little => [n % 256, (n >>> 8) % 256]
  | .big => [(n >>> 8) % 256, n % 256]

/-- Embeds `struct.pack(endianness + "I", n)`: four bytes in the configured
endianness. -/
def pack32 (e : Endianness) (n : Nat) : List Nat :=
  match e with
  | .little => [n % 256, (n >>> 8) % 256, (n >>> 16) % 256, (n >>> 24) % 256]
  | .big => [(n >>> 24) % 256, (n >>> 16) % 256, (n >>> 8) % 256, n % 256]

/-- Embeds `struct.unpack(endianness + "H", l)` of a two-byte sequence. -/
def unpack16 (e : Endianness) (l : List Nat) : Nat :=
  match e with
  | .little => l.getD 0 0 + 256 * l.getD 1 0
  | .big => l.getD 1 0 + 256 * l.getD 0 0

/-- Embeds `struct.unpack(endianness + "I", l)` of a four-byte sequence. -/
def unpack32 (e : Endianness) (l : List Nat) : Nat :=
  match e with
  | .little =>
      l.getD 0 0 + 256 * l.getD 1 0 + 65536 * l.getD 2 0 + 16777216 * l.getD 3 0
  | .big =>
      l.getD 3 0 + 256 * l.getD 2 0 + 65536 * l.getD 1 0 + 16777216 * l.getD 0 0

/-- Embeds `link.Frame`: flags plus an optional payload (defaults mirror
`Frame.__init__`). `Frame.__init__` additionally validates
`flags & 0xFFFF == flags`; theorems carry that as a hypothesis. -/
structure Frame where
  flags : Nat := 0x0000
  payload : Option (List Nat) := none
deriving DecidableEq, Repr

/-- Embeds `BaseTinyLink._checksum_header`: XOR of the two flags bytes and the two
length bytes. -/
def checksum_header (flags length : Nat) : Nat :=
  let a := (flags &&& 0x00FF) >>> 0
  let b := (flags &&& 0xFF00) >>> 8
  let c := (length &&& 0x00FF) >>> 0
  let d := (length &&& 0xFF00) >>> 8
  a ^^^ b ^^^ c ^^^ d

/-- Embeds `BaseTinyLink._checksum_frame`: the custom CRC32 over header ++ payload,
masked to 32 bits. -/
def checksum_frame (header payload : List Nat) : Nat :=
  crc32 (header ++ payload) &&& 0xFFFFFFFF

/-- Embeds `BaseTinyLink._escape`: byte-stuffing; each FLAG or ESCAPE byte is
replaced by ESCAPE followed by the original byte. -/
def escape : List Nat → List Nat
  | [] => []
  | byte :: rest =>
      (if byte = FLAG then [ESCAPE, FLAG]
       else if byte = ESCAPE then [ESCAPE, ESCAPE]
       else [byte]) ++ escape rest

/-- Protocol states (consts.WAITING_FOR_PREAMBLE / _HEADER / _BODY). -/
inductive MachineState
  | waiting_for_preamble
  | waiting_for_header
  | waiting_for_body
deriving DecidableEq, Repr

/-- Per-link configuration: `BaseTinyLink.__init__` arguments (defaults:
little endian, max_payload_length = 2^(LEN_LENGTH*8) - 1 = 65535). -/
structure Config where
  endianness : Endianness := .little
  max_payload_length : Nat := 65535
deriving DecidableEq, Repr

/-- Size of the preallocated receive buffer:
`max_payload_length + consts.LEN_HEADER + consts.LEN_BODY`. -/
def bufferSize (cfg : Config) : Nat :=
  cfg.max_payload_length + LEN_HEADER + LEN_BODY

/-- The mutable fields of `BaseTinyLink`: state, buffer, index, unescaping. -/
structure LinkState where
  state : MachineState
  buffer : List Nat
  index : Nat
  unescaping : Bool
deriving DecidableEq, Repr

/-- Initial synchronization state set up by `BaseTinyLink.__init__`. -/
def initState (cfg : Config) : LinkState :=
  { state := .waiting_for_preamble
    buffer := List.replicate (bufferSize cfg) 0
    index := 0
    unescaping := false }

/-- Embeds `BaseTinyLink._write_frame`: construct the bytes of a frame, or raise
ValueError when the payload exceeds the maximum length. -/
def write_frame (cfg : Config) (frame : Frame) : Except PyError (List Nat) :=
  let flags := frame.flags
  let payload := frame.payload.getD []
  let length := payload.length
  if length > cfg.max_payload_length then
    .error .valueError
  else
    let preamble := pack32 cfg.endianness PREAMBLE
    let chk_header := checksum_header flags length
    let header := pack16 cfg.endianness flags ++ pack16 cfg.endianness length ++ [chk_header]
    let chk_frame := checksum_frame header payload
    let body := payload ++ pack32 cfg.endianness chk_frame
    .ok (preamble ++ escape (header ++ body))

/-- The unescaping preface of `BaseTinyLink._read_byte` (lines 153-161): in
the header/body states, a pending escape rewinds the cursor by one, and an
arriving ESCAPE byte sets the unescaping flag. -/
def unescape_adjust (st : LinkState) (b : Nat) : LinkState :=
  if st.state = .waiting_for_header ∨ st.state = .waiting_for_body then
    if st.unescaping then { st with index := st.index - 1, unescaping := false }
    else if b = ESCAPE then { st with unescaping := true }
    else st
  else st

/-- Lines 162-163 of `BaseTinyLink._read_byte`: store the raw byte at the
cursor and advance the cursor. -/
def unescape_write (st : LinkState) (b : Nat) : LinkState :=
  let s1 := unescape_adjust st b
  { s1 with buffer := s1.buffer.set s1.index b, index := s1.index + 1 }

/-- The state-dispatch part of `BaseTinyLink._read_byte` (lines 168-227),
applied to the state after the byte has been stored. -/
def check_step (cfg : Config) (st : LinkState) : LinkState × Option Frame :=
  match st.state with
  | .waiting_for_preamble =>
      if LEN_PREAMBLE ≤ st.index then
        let preamble := unpack32 cfg.endianness ((st.buffer.drop (st.index - 4)).take 4)
        if preamble = PREAMBLE then
          ({ st with index := 0, state := .waiting_for_header }, none)
        else if st.index = cfg.max_payload_length + LEN_HEADER + LEN_BODY then
          ({ st with
               buffer := st.buffer.drop (st.buffer.length - 4) ++ st.buffer.drop 4,
               index := 4 }, none)
        else (st, none)
      else (st, none)
  | .waiting_for_header =>
      if st.index = LEN_HEADER then
        let flags := unpack16 cfg.endianness (st.buffer.take 2)
        let length := unpack16 cfg.endianness ((st.buffer.drop 2).take 2)
        let chk := st.buffer.getD 4 0
        if chk = checksum_header flags length ∧ length ≤ cfg.max_payload_length then
          ({ st with state := .waiting_for_body }, none)
        else
          ({ st with index := 0, state := .waiting_for_preamble }, none)
      else (st, none)
  | .waiting_for_body =>
      let flags := unpack16 cfg.endianness (st.buffer.take 2)
      let length := unpack16 cfg.endianness ((st.buffer.drop 2).take 2)
      if st.index = length + LEN_HEADER + LEN_CRC then
        let payload := (st.buffer.drop LEN_HEADER).take length
        let chk_frame := unpack32 cfg.endianness ((st.buffer.drop (LEN_HEADER + length)).take 4)
        let result : Option Frame :=
          if chk_frame = checksum_frame (st.buffer.take LEN_HEADER) payload then
            some { flags := flags, payload := some payload }
          else none
        ({ st with index := 0, state := .waiting_for_preamble }, result)
      else (st, none)

/-- Embeds `BaseTinyLink._read_byte`: process one raw byte; returns the updated
state and a completed frame, if any. -/
def read_byte (cfg : Config) (st : LinkState) (b : Nat) : LinkState × Option Frame :=
  let s2 := unescape_write st b
  if s2.unescaping then (s2, none) else check_step cfg s2

/-- Repeated application of `read_byte` over a byte sequence, collecting all
frames that complete (`TinyLink.read_frame` loops `read_byte` this way). -/
def read_bytes (cfg : Config) : LinkState → List Nat → LinkState × List Frame
  | st, [] => (st, [])
  | st, b :: rest =>
      let p := read_byte cfg st b
      let q := read_bytes cfg p.1 rest
      (q.1, p.2.toList ++ q.2)

/-- Embeds `TinyLink.write_frame`: encode and push the bytes to the sink. A raised
ValueError propagates; in that case nothing is written and the
synchronization state is untouched (the encoder never reads or writes it). -/
def link_write_frame (cfg : Config) (st : LinkState) (sink : List Nat)
    (frame : Frame) : LinkState × List Nat × Option PyError :=
  match write_frame cfg frame with
  | .error err => (st, sink, some err)
  | .ok data => (st, sink ++ data, none)

/-- The 5 header bytes packed by `_write_frame`:
`struct.pack(endianness + "HHB", flags, length, checksum_header)`. -/
def headerBytes (cfg : Config) (flags length : Nat) : List Nat :=
  pack16 cfg.endianness flags ++ pack16 cfg.endianness length ++ [checksum_header flags length]

/-- The logical (pre-escaping) header ++ body content of an encoded frame. -/
def frameData (cfg : Config) (flags : Nat) (payload : List Nat) : List Nat :=
  headerBytes cfg flags payload.length ++ payload ++
    pack32 cfg.endianness (checksum_frame (headerBytes cfg flags payload.length) payload)

/-- Receive buffer contents after the first `k` cells have been overwritten
with the first `k` bytes of `data`, starting from buffer `B0`. -/
def midBuffer (B0 data : List Nat) (k : Nat) : List Nat :=
  data.take k ++ B0.drop k

/-- The synchronization state after the preamble has been recognized and `k`
logical bytes of the frame data have been stored. -/
def midState (B0 data : List Nat) (k : Nat) : LinkState :=
  { state := if k < LEN_HEADER then .waiting_for_header else .waiting_for_body
    buffer := midBuffer B0 data k
    index := k
    unescaping := false }

/-- The frame-checksum recipe exactly as the spec words it (§4.1): for each
input byte `c`, `crc = ((crc >> 8) & 0x00FFFFFF) XOR f(crc, c)`, where `f`
repeats 8 times from `crc8 = (crc XOR c) & 0xFF`: shift right by one,
XOR-ing the polynomial 0xEDB88320 when the low bit is set; initial state 0,
no final complement. Written from the spec's words, to be compared with the
source-derived `checksum_frame`. -/
def crc32_spec_f (crc c : Nat) : Nat :=
  (List.range 8).foldl
    (fun x _ => if x &&& 1 = 1 then (x >>> 1) ^^^ 0xEDB88320 else x >>> 1)
    ((crc ^^^ c) &&& 0xFF)

/-- One byte of the spec's CRC recipe (see `crc32_spec_f`). -/
def crc32_spec_step (crc c : Nat) : Nat :=
  ((crc >>> 8) &&& 0x00FFFFFF) ^^^ crc32_spec_f crc c

/-- The spec's bit-serial CRC32 over a whole buffer: initial state 0, no
final complement. -/
def crc32_spec (buf : List Nat) : Nat :=
  buf.foldl crc32_spec_step 0

/-- The declared payload length as stored in the first bytes of the receive
buffer (`struct.unpack_from(endianness + "HHB", self.buffer)`, middle
field). -/
def headerLength (cfg : Config) (buf : List Nat) : Nat :=
  unpack16 cfg.endianness ((buf.drop 2).take 2)

/-- The buffer cell that `self.buffer[self.index] = byte[0]` writes during
`_read_byte`, after the unescaping adjustment of the cursor. -/
def write_index (st : LinkState) (b : Nat) : Nat :=
  (unescape_adjust st b).index

/-- Reachability invariant of the synchronization state: the buffer keeps its
preallocated size and the cursor stays within the bounds appropriate for
the current state, so every buffer write stays strictly inside the buffer. -/
def Inv (cfg : Config) (st : LinkState) : Prop :=
  st.buffer.length = bufferSize cfg ∧
  match st.state with
  | .waiting_for_preamble =>
      st.unescaping = false ∧ st.index + 1 ≤ bufferSize cfg
  | .waiting_for_header =>
      (st.unescaping = false → st.index ≤ 4) ∧
      (st.unescaping = true → 1 ≤ st.index ∧ st.index ≤ 5)
  | .waiting_for_body =>
      headerLength cfg st.buffer ≤ cfg.max_payload_length ∧
      (st.unescaping = false →
        5 ≤ st.index ∧ st.index ≤ headerLength cfg st.buffer + 8) ∧
      (st.unescaping = true →
        6 ≤ st.index ∧ st.index ≤ headerLength cfg st.buffer + 9)

namespace legacy

/-- Legacy frames (`tinylink/__init__.py`): `Frame`, `DamagedFrame` and
`ResetFrame`. -/
inductive LFrame
  | frame (data : List Nat) (flags : Nat)
  | damaged (data : List Nat) (flags : Nat)
  | reset
deriving DecidableEq, Repr

/-- The instance fields that legacy `TinyLink.__init__` actually assigns.
Note: the constructor accepts an `ignore_damaged` argument but never
assigns it to the instance, so there is no such field. -/
structure LState where
  endianness : Endianness
  max_length : Nat
  state : MachineState
  stream : List Nat
  index : Nat
deriving DecidableEq, Repr

/-- Legacy `TinyLink.__init__`: preallocate the stream and start waiting for
a preamble. -/
def linit (e : Endianness) (max_length : Nat) : LState :=
  { endianness := e
    max_length := max_length
    state := .waiting_for_preamble
    stream := List.replicate (max_length + LEN_HEADER + LEN_BODY) 0
    index := 0 }

/-- Modelled from the spec: the legacy module calls
`utils.checksum_frame(data, checksum_header)`, which is not under src/
(the `utils.py` in src/ only defines `crc32`). The spec (§4.1) prescribes
the custom CRC32 frame checksum; it is modelled here as that CRC32 over the
header-checksum byte followed by the data. The analysis of the damaged
branch does not depend on this choice: only checksum inequality at one
concrete input is used. The legacy `utils.checksum_header` (also absent
from src/) is the spec's XOR checksum, identical to `checksum_header`. -/
def lchecksum_frame (data : List Nat) (chk : Nat) : Nat :=
  crc32 (chk :: data) &&& 0xFFFFFFFF

/-- One byte of legacy `TinyLink.read` (the loop body, one iteration). The
WAITING_FOR_BODY branch with a frame-checksum mismatch evaluates
`self.ignore_damaged`, an attribute that `__init__` never assigned, which
raises AttributeError; that is modelled as `.error .attributeError`. -/
def lread_byte (lnk0 : LState) (b : Nat) : Except PyError (LState × List LFrame) :=
  let lnk : LState :=
    { lnk0 with stream := lnk0.stream.set lnk0.index b, index := lnk0.index + 1 }
  match lnk.state with
  | .waiting_for_preamble =>
      if LEN_PREAMBLE ≤ lnk.index then
        let start := unpack32 lnk.endianness ((lnk.stream.drop (lnk.index - 4)).take 4)
        if start = PREAMBLE then
          .ok ({ lnk with index := 0, state := .waiting_for_header }, [])
        else if lnk.index = lnk.max_length + LEN_HEADER + LEN_BODY then
          .ok ({ lnk with
                   stream := lnk.stream.drop (lnk.stream.length - 4) ++ lnk.stream.drop 4,
                   index := 4 }, [])
        else .ok (lnk, [])
      else .ok (lnk, [])
  | .waiting_for_header =>
      if lnk.index = LEN_HEADER then
        let flags := unpack16 lnk.endianness (lnk.stream.take 2)
        let length := unpack16 lnk.endianness ((lnk.stream.drop 2).take 2)
        let chk := lnk.stream.getD 4 0
        if chk = checksum_header flags length ∧ length ≤ lnk.max_length then
          if 0 < length then
            .ok ({ lnk with state := .waiting_for_body }, [])
          else
            .ok ({ lnk with index := 0, state := .waiting_for_preamble }, [.reset])
        else
          .ok ({ lnk with index := 0, state := .waiting_for_preamble }, [])
      else .ok (lnk, [])
  | .waiting_for_body =>
      let flags := unpack16 lnk.endianness (lnk.stream.take 2)
      let length := unpack16 lnk.endianness ((lnk.stream.drop 2).take 2)
      let chk_a := lnk.stream.getD 4 0
      if lnk.index = LEN_HEADER + length + LEN_CRC then
        let result := (lnk.stream.drop LEN_HEADER).take length
        let chk_b := unpack32 lnk.endianness ((lnk.stream.drop (LEN_HEADER + length)).take 4)
        if chk_b = lchecksum_frame result chk_a then
          .ok ({ lnk with index := 0, state := .waiting_for_preamble }, [.frame result flags])
        else
          .error .attributeError
      else .ok (lnk, [])

/-- Feed a whole byte sequence through legacy `TinyLink.read`, propagating a
raised exception. -/
def lread_list : LState → List Nat → Except PyError (LState × List LFrame)
  | lnk, [] => .ok (lnk, [])
  | lnk, b :: rest =>
      match lread_byte lnk b with
      | .error e => .error e
      | .ok (lnk1, fs) =>
          match lread_list lnk1 rest with
          | .error e => .error e
          | .ok (lnk2, fs2) => .ok (lnk2, fs ++ fs2)

end legacy

/-! ## General lemmas -/

theorem and_mask32_of_lt {x : Nat} (h : x < 2 ^ 32) : x &&& 0xFFFFFFFF = x := by
  apply Nat.eq_of_testBit_eq
  intro i
  rcases lt_or_le i 32 with hi | hi
  · rw [show (0xFFFFFFFF : Nat) = 2 ^ 32 - 1 from by norm_num]
    simp only [Nat.testBit_and, Nat.testBit_two_pow_sub_one]
    simp [hi]
  · have hx : x.testBit i = false :=
      Nat.testBit_lt_two_pow (lt_of_lt_of_le h (Nat.pow_le_pow_right (by norm_num) hi))
    simp [Nat.testBit_and, hx]

theorem crc32_loop_lt (n : Nat) {x : Nat} (h : x < 2 ^ 32) : crc32_loop n x < 2 ^ 32 := by
  induction n generalizing x with
  | zero => simpa [crc32_loop] using h
  | succ n ih =>
      rw [crc32_loop]
      apply ih
      have hshift : x >>> 1 < 2 ^ 32 := by
        rw [Nat.shiftRight_eq_div_pow]
        exact lt_of_le_of_lt (Nat.div_le_self _ _) h
      split
      · exact Nat.xor_lt_two_pow hshift (by norm_num [CRC32_POLYNOMIAL])
      · exact hshift

theorem crc32_value_lt (r c : Nat) : crc32_value r c < 2 ^ 32 := by
  unfold crc32_value
  have htemp : (r >>> 8) &&& 0x00FFFFFF < 2 ^ 32 :=
    lt_of_le_of_lt Nat.and_le_right (by norm_num)
  have hcrc : (r ^^^ c) &&& 0xFF < 2 ^ 32 :=
    lt_of_le_of_lt Nat.and_le_right (by norm_num)
  exact Nat.xor_lt_two_pow htemp (crc32_loop_lt 8 hcrc)

theorem foldl_crc32_lt (l : List Nat) : ∀ a, a < 2 ^ 32 → List.foldl crc32_value a l < 2 ^ 32 := by
  induction l with
  | nil => intro a h; simpa using h
  | cons b rest ih => intro a _; exact ih _ (crc32_value_lt a b)

theorem crc32_lt (l : List Nat) : crc32 l < 2 ^ 32 :=
  foldl_crc32_lt l CRC32_INITIAL (by norm_num [CRC32_INITIAL])

theorem crc32_value_eq_spec_step : crc32_value = crc32_spec_step := by
  funext r c
  rfl

theorem unpack16_pack16 (e : Endianness) {n : Nat} (h : n < 65536) :
    unpack16 e (pack16 e n) = n := by
  cases e <;> simp [pack16, unpack16, Nat.shiftRight_eq_div_pow] <;> omega

theorem unpack32_pack32 (e : Endianness) {n : Nat} (h : n < 4294967296) :
    unpack32 e (pack32 e n) = n := by
  cases e <;> simp [pack32, unpack32, Nat.shiftRight_eq_div_pow] <;> omega

theorem pack16_length (e : Endianness) (n : Nat) : (pack16 e n).length = 2 := by
  cases e <;> simp [pack16]

theorem pack32_length (e : Endianness) (n : Nat) : (pack32 e n).length = 4 := by
  cases e <;> simp [pack32]

theorem read_bytes_append (cfg : Config) (st : LinkState) (xs ys : List Nat) :
    read_bytes cfg st (xs ++ ys) =
      ((read_bytes cfg (read_bytes cfg st xs).1 ys).1,
       (read_bytes cfg st xs).2 ++ (read_bytes cfg (read_bytes cfg st xs).1 ys).2) := by
  induction xs generalizing st with
  | nil => simp [read_bytes]
  | cons b rest ih => simp [read_bytes, ih]

/-! ## Claim C2 -/

/-- C2: `BaseTinyLink._checksum_frame(header, payload)` equals the bit-serial
CRC32 of `header ++ payload` with polynomial 0xEDB88320 and initial state 0,
per byte doing `crc = ((crc >> 8) & 0x00FFFFFF) XOR f(crc, c)` with `f` the
8-fold shift-and-conditionally-XOR loop, and no final complement step. -/
theorem c2_checksum_frame_matches_spec_recipe (header payload : List Nat) :
    checksum_frame header payload = crc32_spec (header ++ payload) := by
  unfold checksum_frame crc32_spec
  rw [and_mask32_of_lt (crc32_lt _)]
  unfold crc32
  rw [crc32_value_eq_spec_step]
  rfl

/-! ## Buffer bookkeeping lemmas -/

theorem midBuffer_length (B0 data : List Nat) (k : Nat) (hk : k ≤ data.length)
    (hkB : k ≤ B0.length) : (midBuffer B0 data k).length = B0.length := by
  simp [midBuffer]
  omega

theorem midBuffer_zero (B0 data : List Nat) : midBuffer B0 data 0 = B0 := by
  simp [midBuffer]

theorem midBuffer_set (B0 data : List Nat) (k : Nat) (hkD : k < data.length)
    (hkB : k < B0.length) :
    (midBuffer B0 data k).set k data[k] = midBuffer B0 data (k + 1) := by
  unfold midBuffer
  have hlen : (data.take k).length = k := by simp; omega
  rw [List.set_append_right _ _ (by omega)]
  rw [hlen, Nat.sub_self]
  rw [List.drop_eq_getElem_cons hkB]
  rw [List.set_cons_zero]
  rw [← List.take_concat_get data k hkD, List.concat_eq_append, List.append_assoc]
  rfl

theorem midBuffer_take (B0 data : List Nat) (k cnt : Nat) (h1 : cnt ≤ k)
    (h2 : k ≤ data.length) : (midBuffer B0 data k).take cnt = data.take cnt := by
  unfold midBuffer
  rw [List.take_append_of_le_length (by simp; omega)]
  rw [List.take_take, Nat.min_eq_left h1]

theorem midBuffer_extract (B0 data : List Nat) (k off cnt : Nat) (h1 : off + cnt ≤ k)
    (h2 : k ≤ data.length) :
    ((midBuffer B0 data k).drop off).take cnt = (data.drop off).take cnt := by
  unfold midBuffer
  rw [List.drop_append_of_le_length (by simp; omega)]
  rw [List.take_append_of_le_length (by simp; omega)]
  rw [List.drop_take, List.take_take, Nat.min_eq_left (by omega)]

theorem midBuffer_getD (B0 data : List Nat) (k off d : Nat) (h1 : off < k)
    (h2 : k ≤ data.length) : (midBuffer B0 data k).getD off d = data.getD off d := by
  unfold midBuffer
  have hoff : off < (data.take k).length := by simp; omega
  simp only [List.getD_eq_getElem?_getD]
  rw [List.getElem?_append_left hoff]
  simp [List.getElem?_take, h1]

/-! ## Stepping lemmas for the state machine -/

theorem read_byte_preamble_state (cfg : Config) (st : LinkState) (b : Nat)
    (hst : st.state = .waiting_for_preamble) (hu : st.unescaping = false) :
    read_byte cfg st b =
      check_step cfg ⟨st.state, st.buffer.set st.index b, st.index + 1, false⟩ := by
  have hc : ¬(st.state = MachineState.waiting_for_header ∨
      st.state = MachineState.waiting_for_body) := by
    rw [hst]; intro h; rcases h with h | h <;> exact MachineState.noConfusion h
  unfold read_byte unescape_write unescape_adjust
  rw [if_neg hc]
  simp [hu]

theorem read_byte_escape_set (cfg : Config) (st : LinkState)
    (hstate : st.state = .waiting_for_header ∨ st.state = .waiting_for_body)
    (hu : st.unescaping = false) :
    read_byte cfg st ESCAPE =
      (⟨st.state, st.buffer.set st.index ESCAPE, st.index + 1, true⟩, none) := by
  unfold read_byte unescape_write unescape_adjust
  rw [if_pos hstate]
  simp [hu]

theorem read_byte_unescape (cfg : Config) (st : LinkState) (b : Nat)
    (hstate : st.state = .waiting_for_header ∨ st.state = .waiting_for_body)
    (hu : st.unescaping = true) :
    read_byte cfg st b =
      check_step cfg ⟨st.state, st.buffer.set (st.index - 1) b, (st.index - 1) + 1, false⟩ := by
  unfold read_byte unescape_write unescape_adjust
  rw [if_pos hstate]
  simp [hu]

theorem read_byte_plain (cfg : Config) (st : LinkState) (b : Nat)
    (hstate : st.state = .waiting_for_header ∨ st.state = .waiting_for_body)
    (hu : st.unescaping = false) (hb : b ≠ ESCAPE) :
    read_byte cfg st b =
      check_step cfg ⟨st.state, st.buffer.set st.index b, st.index + 1, false⟩ := by
  unfold read_byte unescape_write unescape_adjust
  rw [if_pos hstate]
  simp [hu, hb]

theorem read_bytes_escape (cfg : Config) (st : LinkState) (b : Nat) (bs : List Nat)
    (hstate : st.state = .waiting_for_header ∨ st.state = .waiting_for_body)
    (hu : st.unescaping = false) :
    read_bytes cfg st (escape (b :: bs)) =
      ((read_bytes cfg
          (check_step cfg ⟨st.state, st.buffer.set st.index b, st.index + 1, false⟩).1
          (escape bs)).1,
       (check_step cfg ⟨st.state, st.buffer.set st.index b, st.index + 1, false⟩).2.toList ++
       (read_bytes cfg
          (check_step cfg ⟨st.state, st.buffer.set st.index b, st.index + 1, false⟩).1
          (escape bs)).2) := by
  have hesc : b = FLAG ∨ b = ESCAPE → escape (b :: bs) = ESCAPE :: b :: escape bs := by
    have hne : ESCAPE ≠ FLAG := by decide
    rintro (h | h) <;> subst h
    · simp [escape]
    · simp [escape, hne]
  by_cases hbe : b = FLAG ∨ b = ESCAPE
  · rw [hesc hbe]
    rw [read_bytes, read_byte_escape_set cfg st hstate hu]
    rw [read_bytes, read_byte_unescape cfg _ b (by simpa using hstate) rfl]
    simp [List.set_set]
  · push_neg at hbe
    have : escape (b :: bs) = b :: escape bs := by
      simp [escape, hbe.1, hbe.2]
    rw [this, read_bytes, read_byte_plain cfg st b hstate hu hbe.2]

/-! ## Structure of the encoded frame data -/

theorem headerBytes_length (cfg : Config) (flags length : Nat) :
    (headerBytes cfg flags length).length = 5 := by
  simp [headerBytes, pack16_length]

theorem frameData_length (cfg : Config) (flags : Nat) (payload : List Nat) :
    (frameData cfg flags payload).length = payload.length + 9 := by
  simp [frameData, headerBytes_length, pack32_length]
  omega

theorem frameData_assoc (cfg : Config) (flags : Nat) (payload : List Nat) :
    frameData cfg flags payload =
      pack16 cfg.endianness flags ++
        (pack16 cfg.endianness payload.length ++
          ([checksum_header flags payload.length] ++
            (payload ++
              pack32 cfg.endianness
                (checksum_frame (headerBytes cfg flags payload.length) payload)))) := by
  simp [frameData, headerBytes]

theorem frameData_take2 (cfg : Config) (flags : Nat) (payload : List Nat) :
    (frameData cfg flags payload).take 2 = pack16 cfg.endianness flags := by
  rw [frameData_assoc]
  exact List.take_left' (pack16_length _ _)

theorem frameData_drop2_take2 (cfg : Config) (flags : Nat) (payload : List Nat) :
    ((frameData cfg flags payload).drop 2).take 2 = pack16 cfg.endianness payload.length := by
  rw [frameData_assoc]
  rw [List.drop_left' (pack16_length _ _)]
  exact List.take_left' (pack16_length _ _)

theorem frameData_getD4 (cfg : Config) (flags : Nat) (payload : List Nat) :
    (frameData cfg flags payload).getD 4 0 = checksum_header flags payload.length := by
  rw [frameData_assoc]
  have h2 : (pack16 cfg.endianness flags).length = 2 := pack16_length _ _
  have h2l : (pack16 cfg.endianness payload.length).length = 2 := pack16_length _ _
  simp only [List.getD_eq_getElem?_getD]
  rw [List.getElem?_append_right (by omega)]
  rw [List.getElem?_append_right (by omega)]
  rw [h2, h2l]
  simp

theorem frameData_take5 (cfg : Config) (flags : Nat) (payload : List Nat) :
    (frameData cfg flags payload).take 5 = headerBytes cfg flags payload.length := by
  unfold frameData
  rw [List.append_assoc]
  exact List.take_left' (headerBytes_length _ _ _)

theorem frameData_drop5 (cfg : Config) (flags : Nat) (payload : List Nat) :
    (frameData cfg flags payload).drop 5 =
      payload ++
        pack32 cfg.endianness (checksum_frame (headerBytes cfg flags payload.length) payload) := by
  unfold frameData
  rw [List.append_assoc]
  exact List.drop_left' (headerBytes_length _ _ _)

theorem frameData_drop5_take (cfg : Config) (flags : Nat) (payload : List Nat) :
    ((frameData cfg flags payload).drop 5).take payload.length = payload := by
  rw [frameData_drop5]
  exact List.take_left _ _

theorem frameData_crc (cfg : Config) (flags : Nat) (payload : List Nat) :
    ((frameData cfg flags payload).drop (5 + payload.length)).take 4 =
      pack32 cfg.endianness (checksum_frame (headerBytes cfg flags payload.length) payload) := by
  rw [← List.drop_drop, frameData_drop5, List.drop_left]
  exact List.take_of_length_le (by rw [pack32_length])

theorem checksum_frame_lt (header payload : List Nat) :
    checksum_frame header payload < 4294967296 := by
  unfold checksum_frame
  have h : crc32 (header ++ payload) &&& 0xFFFFFFFF < 2 ^ 32 :=
    Nat.and_lt_two_pow _ (by norm_num)
  simpa using h

theorem midState_state_mem (B0 data : List Nat) (k : Nat) :
    (midState B0 data k).state = .waiting_for_header ∨
      (midState B0 data k).state = .waiting_for_body := by
  by_cases h : k < LEN_HEADER <;> simp [midState, h]

theorem LEN_HEADER_eq : LEN_HEADER = 5 := rfl

theorem LEN_CRC_eq : LEN_CRC = 4 := rfl

theorem bufferSize_eq (cfg : Config) : bufferSize cfg = cfg.max_payload_length + 9 := rfl

/-! ## Evaluating check_step on mid-frame states -/

theorem check_step_header_skip (cfg : Config) (B : List Nat) (i : Nat) (hi : i ≠ 5) :
    check_step cfg ⟨.waiting_for_header, B, i, false⟩ =
      (⟨.waiting_for_header, B, i, false⟩, none) := by
  unfold check_step
  dsimp only
  rw [if_neg (by rw [LEN_HEADER_eq]; exact hi)]

theorem check_step_body_skip (cfg : Config) (B : List Nat) (i L : Nat)
    (hL : unpack16 cfg.endianness ((B.drop 2).take 2) = L)
    (hi : i ≠ L + 9) :
    check_step cfg ⟨.waiting_for_body, B, i, false⟩ =
      (⟨.waiting_for_body, B, i, false⟩, none) := by
  unfold check_step
  dsimp only
  rw [hL]
  rw [if_neg (by rw [LEN_HEADER_eq, LEN_CRC_eq]; omega)]

theorem check_step_header_five (cfg : Config) (flags : Nat) (payload B0 : List Nat)
    (hflags : flags < 65536) (hlen16 : payload.length < 65536)
    (hlenM : payload.length ≤ cfg.max_payload_length) :
    check_step cfg ⟨.waiting_for_header, midBuffer B0 (frameData cfg flags payload) 5, 5, false⟩ =
      (⟨.waiting_for_body, midBuffer B0 (frameData cfg flags payload) 5, 5, false⟩, none) := by
  have hn := frameData_length cfg flags payload
  have hf : unpack16 cfg.endianness ((midBuffer B0 (frameData cfg flags payload) 5).take 2)
      = flags := by
    rw [midBuffer_take _ _ _ _ (by omega) (by omega), frameData_take2,
      unpack16_pack16 _ hflags]
  have hL : unpack16 cfg.endianness
      (((midBuffer B0 (frameData cfg flags payload) 5).drop 2).take 2) = payload.length := by
    rw [midBuffer_extract _ _ _ _ _ (by omega) (by omega), frameData_drop2_take2,
      unpack16_pack16 _ hlen16]
  have hchk : (midBuffer B0 (frameData cfg flags payload) 5).getD 4 0
      = checksum_header flags payload.length := by
    rw [midBuffer_getD _ _ _ _ _ (by omega) (by omega), frameData_getD4]
  unfold check_step
  dsimp only
  rw [if_pos (by rw [LEN_HEADER_eq])]
  rw [hf, hL, hchk]
  rw [if_pos ⟨rfl, hlenM⟩]

theorem check_step_body_final (cfg : Config) (flags : Nat) (payload B0 : List Nat)
    (hflags : flags < 65536) (hlen16 : payload.length < 65536) :
    check_step cfg ⟨.waiting_for_body,
        midBuffer B0 (frameData cfg flags payload) (frameData cfg flags payload).length,
        (frameData cfg flags payload).length, false⟩ =
      (⟨.waiting_for_preamble,
        midBuffer B0 (frameData cfg flags payload) (frameData cfg flags payload).length,
        0, false⟩,
       some { flags := flags, payload := some payload }) := by
  have hn := frameData_length cfg flags payload
  have hf : unpack16 cfg.endianness
      ((midBuffer B0 (frameData cfg flags payload) (frameData cfg flags payload).length).take 2)
      = flags := by
    rw [midBuffer_take _ _ _ _ (by omega) (by omega), frameData_take2,
      unpack16_pack16 _ hflags]
  have hL : unpack16 cfg.endianness
      (((midBuffer B0 (frameData cfg flags payload)
        (frameData cfg flags payload).length).drop 2).take 2) = payload.length := by
    rw [midBuffer_extract _ _ _ _ _ (by omega) (by omega), frameData_drop2_take2,
      unpack16_pack16 _ hlen16]
  have hpay : ((midBuffer B0 (frameData cfg flags payload)
      (frameData cfg flags payload).length).drop LEN_HEADER).take payload.length = payload := by
    rw [LEN_HEADER_eq, midBuffer_extract _ _ _ _ _ (by omega) (by omega), frameData_drop5_take]
  have hcrc : unpack32 cfg.endianness
      (((midBuffer B0 (frameData cfg flags payload)
        (frameData cfg flags payload).length).drop (LEN_HEADER + payload.length)).take 4)
      = checksum_frame (headerBytes cfg flags payload.length) payload := by
    rw [LEN_HEADER_eq, midBuffer_extract _ _ _ _ _ (by omega) (by omega), frameData_crc,
      unpack32_pack32 _ (checksum_frame_lt _ _)]
  have hhdr : (midBuffer B0 (frameData cfg flags payload)
      (frameData cfg flags payload).length).take LEN_HEADER
      = headerBytes cfg flags payload.length := by
    rw [LEN_HEADER_eq, midBuffer_take _ _ _ _ (by omega) (by omega), frameData_take5]
  unfold check_step
  dsimp only
  rw [hf, hL, hpay, hcrc, hhdr]
  rw [if_pos (by rw [LEN_HEADER_eq, LEN_CRC_eq]; omega)]
  rw [if_pos rfl]

/-! ## Feeding the escaped frame data through the machine -/

theorem feed_data (cfg : Config) (flags : Nat) (payload B0 : List Nat)
    (hB0 : B0.length = bufferSize cfg)
    (hflags : flags < 65536) (hlen16 : payload.length < 65536)
    (hlenM : payload.length ≤ cfg.max_payload_length) :
    ∀ j k, 1 ≤ j → k + j = (frameData cfg flags payload).length →
      read_bytes cfg (midState B0 (frameData cfg flags payload) k)
          (escape ((frameData cfg flags payload).drop k)) =
        (⟨.waiting_for_preamble,
           midBuffer B0 (frameData cfg flags payload) (frameData cfg flags payload).length,
           0, false⟩,
         [{ flags := flags, payload := some payload }]) := by
  intro j
  induction j with
  | zero => intro k h1 h2; omega
  | succ j ih =>
    intro k h1 hk
    have hn := frameData_length cfg flags payload
    have hkD : k < (frameData cfg flags payload).length := by omega
    have hkB : k < B0.length := by rw [hB0, bufferSize_eq]; omega
    rw [List.drop_eq_getElem_cons hkD]
    rw [read_bytes_escape cfg _ _ _ (midState_state_mem B0 _ k) rfl]
    simp only [midState]
    rw [midBuffer_set _ _ _ hkD hkB]
    by_cases hfin : j = 0
    · subst hfin
      have hk1 : k + 1 = (frameData cfg flags payload).length := by omega
      rw [if_neg (by rw [LEN_HEADER_eq]; omega)]
      rw [hk1]
      rw [check_step_body_final cfg flags payload B0 hflags hlen16]
      rw [List.drop_length]
      simp [read_bytes, escape]
    · have hlt : k + 1 < (frameData cfg flags payload).length := by omega
      have hstep : check_step cfg
          ⟨if k < LEN_HEADER then MachineState.waiting_for_header
            else MachineState.waiting_for_body,
           midBuffer B0 (frameData cfg flags payload) (k + 1), k + 1, false⟩ =
          (midState B0 (frameData cfg flags payload) (k + 1), none) := by
        by_cases hk5 : k + 1 < 5
        · rw [if_pos (by rw [LEN_HEADER_eq]; omega)]
          rw [check_step_header_skip cfg _ _ (by omega)]
          simp [midState, LEN_HEADER_eq, hk5]
        · by_cases hk5e : k + 1 = 5
          · rw [if_pos (by rw [LEN_HEADER_eq]; omega)]
            rw [hk5e]
            rw [check_step_header_five cfg flags payload B0 hflags hlen16 hlenM]
            simp [midState, LEN_HEADER_eq]
          · rw [if_neg (by rw [LEN_HEADER_eq]; omega)]
            have hL : unpack16 cfg.endianness
                (((midBuffer B0 (frameData cfg flags payload) (k + 1)).drop 2).take 2)
                = payload.length := by
              rw [midBuffer_extract _ _ _ _ _ (by omega) (by omega), frameData_drop2_take2,
                unpack16_pack16 _ hlen16]
            rw [check_step_body_skip cfg _ _ _ hL (by omega)]
            have hge : ¬(k + 1 < LEN_HEADER) := by rw [LEN_HEADER_eq]; omega
            simp [midState, hge]
      rw [hstep]
      have hj1 : 1 ≤ j := by omega
      have hk1 : (k + 1) + j = (frameData cfg flags payload).length := by omega
      dsimp only
      rw [ih (k + 1) hj1 hk1]
      simp

/-! ## The preamble stage -/

theorem LEN_PREAMBLE_eq : LEN_PREAMBLE = 4 := rfl

theorem preamble_progress (cfg : Config) (B0 data : List Nat) (k x : Nat)
    (hkD : k < data.length) (hkB : k < B0.length) (hsmall : k + 1 < 4)
    (hx : x = data[k]) :
    read_byte cfg ⟨.waiting_for_preamble, midBuffer B0 data k, k, false⟩ x =
      (⟨.waiting_for_preamble, midBuffer B0 data (k + 1), k + 1, false⟩, none) := by
  subst hx
  rw [read_byte_preamble_state cfg _ _ rfl rfl]
  dsimp only
  rw [midBuffer_set _ _ _ hkD hkB]
  unfold check_step
  dsimp only
  rw [if_neg (by rw [LEN_PREAMBLE_eq]; omega)]

theorem preamble_final (cfg : Config) (B0 data : List Nat) (x : Nat)
    (hlen : data.length = 4) (hkB : 3 < B0.length)
    (hw : unpack32 cfg.endianness data = PREAMBLE)
    (hx : x = data[3]) :
    read_byte cfg ⟨.waiting_for_preamble, midBuffer B0 data 3, 3, false⟩ x =
      (⟨.waiting_for_header, midBuffer B0 data 4, 0, false⟩, none) := by
  subst hx
  rw [read_byte_preamble_state cfg _ _ rfl rfl]
  dsimp only
  rw [midBuffer_set _ _ _ (by omega) hkB]
  unfold check_step
  dsimp only
  rw [if_pos (by rw [LEN_PREAMBLE_eq])]
  have hwin : ((midBuffer B0 data 4).drop (3 + 1 - 4)).take 4 = data := by
    norm_num
    rw [show (4 : Nat) = data.length from hlen.symm]
    rw [midBuffer_take _ _ _ _ (le_refl _) (le_refl _)]
    exact List.take_length data
  rw [hwin, hw, if_pos rfl]

theorem read_bytes_preamble (cfg : Config) (a b c d : Nat)
    (hw : unpack32 cfg.endianness [a, b, c, d] = PREAMBLE) :
    read_bytes cfg (initState cfg) [a, b, c, d] =
      (⟨.waiting_for_header,
        midBuffer (List.replicate (bufferSize cfg) 0) [a, b, c, d] 4, 0, false⟩, []) := by
  have hB : ∀ i : Nat, i < 4 → i < (List.replicate (bufferSize cfg) 0).length := by
    intro i hi
    rw [List.length_replicate, bufferSize_eq]
    omega
  have h0 : initState cfg =
      ⟨.waiting_for_preamble, midBuffer (List.replicate (bufferSize cfg) 0) [a, b, c, d] 0,
        0, false⟩ := by
    unfold initState
    rw [midBuffer_zero]
  rw [h0]
  rw [read_bytes, preamble_progress cfg (List.replicate (bufferSize cfg) 0) [a, b, c, d]
    0 a (by norm_num) (hB 0 (by norm_num)) (by norm_num) rfl]
  rw [read_bytes, preamble_progress cfg (List.replicate (bufferSize cfg) 0) [a, b, c, d]
    1 b (by norm_num) (hB 1 (by norm_num)) (by norm_num) rfl]
  rw [read_bytes, preamble_progress cfg (List.replicate (bufferSize cfg) 0) [a, b, c, d]
    2 c (by norm_num) (hB 2 (by norm_num)) (by norm_num) rfl]
  rw [read_bytes, preamble_final cfg (List.replicate (bufferSize cfg) 0) [a, b, c, d]
    d (by norm_num) (hB 3 (by norm_num)) hw rfl]
  simp [read_bytes]

/-! ## The round trip -/

theorem roundtrip_aux (cfg : Config) (flags : Nat) (payload : List Nat)
    (hflags : flags < 65536) (hlen16 : payload.length < 65536)
    (hlenM : payload.length ≤ cfg.max_payload_length) :
    write_frame cfg { flags := flags, payload := some payload } =
        .ok (pack32 cfg.endianness PREAMBLE ++ escape (frameData cfg flags payload)) ∧
    (read_bytes cfg (initState cfg)
        (pack32 cfg.endianness PREAMBLE ++ escape (frameData cfg flags payload))).2 =
      [{ flags := flags, payload := some payload }] := by
  constructor
  · unfold write_frame
    rw [if_neg (by simp; omega)]
    simp [frameData, headerBytes]
  · have hw : unpack32 cfg.endianness (pack32 cfg.endianness PREAMBLE) = PREAMBLE :=
      unpack32_pack32 _ (by norm_num [PREAMBLE])
    have hex : ∃ a b c d : Nat, pack32 cfg.endianness PREAMBLE = [a, b, c, d] := by
      cases h : cfg.endianness <;> exact ⟨_, _, _, _, rfl⟩
    obtain ⟨a, b, c, d, hpack⟩ := hex
    rw [hpack] at hw ⊢
    rw [read_bytes_append]
    rw [read_bytes_preamble cfg a b c d hw]
    have hB0 : (midBuffer (List.replicate (bufferSize cfg) 0) [a, b, c, d] 4).length
        = bufferSize cfg := by
      rw [midBuffer_length _ _ _ (by norm_num)
        (by rw [List.length_replicate, bufferSize_eq]; omega)]
      exact List.length_replicate _ _
    have hfeed := feed_data cfg flags payload
      (midBuffer (List.replicate (bufferSize cfg) 0) [a, b, c, d] 4) hB0
      hflags hlen16 hlenM ((frameData cfg flags payload).length) 0
      (by rw [frameData_length]; omega) (by omega)
    rw [List.drop_zero] at hfeed
    have hmid : (⟨.waiting_for_header,
        midBuffer (List.replicate (bufferSize cfg) 0) [a, b, c, d] 4, 0, false⟩ : LinkState) =
        midState (midBuffer (List.replicate (bufferSize cfg) 0) [a, b, c, d] 4)
          (frameData cfg flags payload) 0 := by
      simp [midState, midBuffer_zero, LEN_HEADER_eq]
    dsimp only
    rw [hmid, hfeed]
    simp

/-! ## Claim C1 -/

/-- C1: for every flags value below 2^16 and every payload whose length is at
most max_payload_length (and representable in the 2-byte length field),
feeding the bytes produced by `_write_frame` one at a time into a machine in
the initial state (same endianness and max_payload_length) produces exactly
one frame, with the original flags and payload. -/
theorem c1_round_trip (cfg : Config) (flags : Nat) (payload : List Nat)
    (hflags : flags < 65536) (hlen16 : payload.length < 65536)
    (hlenM : payload.length ≤ cfg.max_payload_length) :
    ∃ encoded,
      write_frame cfg { flags := flags, payload := some payload } = .ok encoded ∧
      (read_bytes cfg (initState cfg) encoded).2 =
        [{ flags := flags, payload := some payload }] :=
  ⟨_, (roundtrip_aux cfg flags payload hflags hlen16 hlenM).1,
    (roundtrip_aux cfg flags payload hflags hlen16 hlenM).2⟩

/-- Witness for C1 at flags 258, payload [72, 105], little endian, default
maximum payload length. -/
theorem c1_round_trip_witness :
    (258 < 65536 ∧ ([72, 105] : List Nat).length < 65536 ∧
      ([72, 105] : List Nat).length ≤ (Config.mk .little 65535).max_payload_length) ∧
    (∃ encoded,
      write_frame ⟨.little, 65535⟩ { flags := 258, payload := some [72, 105] } =
        .ok encoded ∧
      (read_bytes ⟨.little, 65535⟩ (initState ⟨.little, 65535⟩) encoded).2 =
        [{ flags := 258, payload := some [72, 105] }]) :=
  ⟨⟨by norm_num, by norm_num, by norm_num⟩,
    c1_round_trip ⟨.little, 65535⟩ 258 [72, 105] (by norm_num) (by norm_num) (by norm_num)⟩

/-! ## Claim C5 -/

theorem escape_replicate_FLAG (n : Nat) :
    escape (List.replicate n FLAG) = (List.replicate n [ESCAPE, FLAG]).flatten := by
  induction n with
  | zero => rfl
  | succ n ih => simp [List.replicate_succ, escape, ih]

theorem escape_replicate_FLAG_length (n : Nat) :
    (escape (List.replicate n FLAG)).length = 2 * n := by
  induction n with
  | zero => rfl
  | succ n ih =>
      simp [List.replicate_succ, escape, ih]
      omega

/-- C5: a payload made solely of marker bytes escapes to exactly twice its
length — each marker byte becoming the escape byte followed by the marker
byte — and the whole encoded frame decodes back to the original payload. -/
theorem c5_marker_payload (cfg : Config) (flags n : Nat)
    (hflags : flags < 65536) (hn16 : n < 65536) (hnM : n ≤ cfg.max_payload_length) :
    (escape (List.replicate n FLAG)).length = 2 * n ∧
    escape (List.replicate n FLAG) = (List.replicate n [ESCAPE, FLAG]).flatten ∧
    ∃ encoded,
      write_frame cfg { flags := flags, payload := some (List.replicate n FLAG) } =
        .ok encoded ∧
      (read_bytes cfg (initState cfg) encoded).2 =
        [{ flags := flags, payload := some (List.replicate n FLAG) }] := by
  refine ⟨escape_replicate_FLAG_length n, escape_replicate_FLAG n, ?_⟩
  have h := roundtrip_aux cfg flags (List.replicate n FLAG) hflags (by simpa) (by simpa)
  exact ⟨_, h.1, h.2⟩

/-- Witness for C5 at flags 7, three marker bytes, little endian, default
maximum payload length. -/
theorem c5_marker_payload_witness :
    (7 < 65536 ∧ 3 < 65536 ∧ 3 ≤ (Config.mk .little 65535).max_payload_length) ∧
    ((escape (List.replicate 3 FLAG)).length = 2 * 3 ∧
     escape (List.replicate 3 FLAG) = (List.replicate 3 [ESCAPE, FLAG]).flatten ∧
     ∃ encoded,
       write_frame ⟨.little, 65535⟩ { flags := 7, payload := some (List.replicate 3 FLAG) } =
         .ok encoded ∧
       (read_bytes ⟨.little, 65535⟩ (initState ⟨.little, 65535⟩) encoded).2 =
         [{ flags := 7, payload := some (List.replicate 3 FLAG) }]) :=
  ⟨⟨by norm_num, by norm_num, by norm_num⟩,
    c5_marker_payload ⟨.little, 65535⟩ 7 3 (by norm_num) (by norm_num) (by norm_num)⟩

/-! ## Claim C7 -/

/-- C7 counterexample: for flags=10 and no payload the header checksum byte
is 10, which is not the marker value; the claim's assertion that the header
checksum byte equals the marker value is false. -/
theorem c7_counterexample : checksum_header 10 0 ≠ FLAG := by decide

/-- C7 (amended): with little endian and the default maximum payload length,
encoding Frame(flags=10, payload=none) yields a frame CRC whose final byte
equals the marker value (the header checksum byte is 10, unescaped), forcing
exactly one escape insertion, so the encoded frame is 14 bytes; feeding it
to the machine returns a frame with flags 10. -/
theorem c7_escaping_last_byte :
    checksum_header 10 0 = 10 ∧
    (pack32 Endianness.little
        (checksum_frame (headerBytes ⟨.little, 65535⟩ 10 0) [])).getD 3 0 = FLAG ∧
    ∃ encoded,
      write_frame ⟨.little, 65535⟩ { flags := 10, payload := none } = .ok encoded ∧
      encoded.length = 14 ∧
      (read_bytes ⟨.little, 65535⟩ (initState ⟨.little, 65535⟩) encoded).2 =
        [{ flags := 10, payload := some [] }] := by
  refine ⟨rfl, by decide, ?_⟩
  have h := roundtrip_aux ⟨.little, 65535⟩ 10 [] (by norm_num) (by norm_num) (by norm_num)
  exact ⟨_, h.1, by decide, h.2⟩

/-! ## Claim C8 -/

/-- C8: a payload longer than max_payload_length makes `_write_frame` raise
ValueError; `write_frame` then pushes nothing to the sink and the
synchronization state is untouched, so the link stays usable. -/
theorem c8_length_exceeded (cfg : Config) (st : LinkState) (sink : List Nat)
    (frame : Frame)
    (hlen : (frame.payload.getD []).length > cfg.max_payload_length) :
    write_frame cfg frame = .error .valueError ∧
    link_write_frame cfg st sink frame = (st, sink, some PyError.valueError) := by
  have h1 : write_frame cfg frame = .error .valueError := by
    unfold write_frame
    rw [if_pos hlen]
  refine ⟨h1, ?_⟩
  unfold link_write_frame
  rw [h1]

/-- Witness for C8: max_payload_length 2, payload of four bytes. -/
theorem c8_length_exceeded_witness :
    (((({ flags := 123, payload := some [98, 108, 117, 98] } : Frame).payload.getD []).length) >
      (Config.mk .little 2).max_payload_length) ∧
    (write_frame ⟨.little, 2⟩ { flags := 123, payload := some [98, 108, 117, 98] } =
      .error .valueError ∧
     link_write_frame ⟨.little, 2⟩ (initState ⟨.little, 2⟩) []
        { flags := 123, payload := some [98, 108, 117, 98] } =
      (initState ⟨.little, 2⟩, [], some PyError.valueError)) :=
  ⟨by norm_num,
    c8_length_exceeded ⟨.little, 2⟩ (initState ⟨.little, 2⟩) []
      { flags := 123, payload := some [98, 108, 117, 98] } (by norm_num)⟩

/-! ## Claim C10 -/

theorem check_step_payload_some (cfg : Config) (s : LinkState) (f : Frame)
    (h : (check_step cfg s).2 = some f) : ∃ bs, f.payload = some bs := by
  unfold check_step at h
  dsimp only at h
  repeat' split at h
  all_goals try simp_all
  exact ⟨_, by rw [← h]⟩

/-- C10: every frame produced by `_read_byte` carries a real (possibly empty)
byte-sequence payload, never the none-value; consequently a frame written
with payload=none round-trips to a frame with an empty-bytes payload. -/
theorem c10_payload_never_none (cfg : Config) (st : LinkState) (b : Nat) (f : Frame)
    (flags : Nat) :
    ((read_byte cfg st b).2 = some f → ∃ bs, f.payload = some bs) ∧
    (flags < 65536 →
      ∃ encoded, write_frame cfg { flags := flags, payload := none } = .ok encoded ∧
        (read_bytes cfg (initState cfg) encoded).2 =
          [{ flags := flags, payload := some [] }]) := by
  constructor
  · intro h
    unfold read_byte at h
    dsimp only at h
    split at h
    · simp at h
    · exact check_step_payload_some cfg _ f h
  · intro hflags
    have h := roundtrip_aux cfg flags [] hflags (by norm_num) (Nat.zero_le _)
    exact ⟨_, h.1, h.2⟩

/-- Witness for C10: the minimal 13-byte frame (flags 0, empty payload,
max_payload_length 0) completes on its last byte and yields a frame whose
payload is `some []`. -/
theorem c10_payload_never_none_witness :
    ((read_byte ⟨.little, 0⟩
        (read_bytes ⟨.little, 0⟩ (initState ⟨.little, 0⟩)
          [85, 170, 85, 170, 0, 0, 0, 0, 0, 0, 0, 0]).1 0).2 =
        some { flags := 0, payload := some ([] : List Nat) } ∧
      (∃ bs, ({ flags := 0, payload := some ([] : List Nat) } : Frame).payload = some bs)) ∧
    (0 < 65536 ∧
      ∃ encoded, write_frame ⟨.little, 0⟩ { flags := 0, payload := none } = .ok encoded ∧
        (read_bytes ⟨.little, 0⟩ (initState ⟨.little, 0⟩) encoded).2 =
          [{ flags := 0, payload := some [] }]) :=
  ⟨⟨by decide,
    (c10_payload_never_none ⟨.little, 0⟩
      (read_bytes ⟨.little, 0⟩ (initState ⟨.little, 0⟩)
        [85, 170, 85, 170, 0, 0, 0, 0, 0, 0, 0, 0]).1 0
      { flags := 0, payload := some [] } 0).1 (by decide)⟩,
   ⟨by norm_num,
    (c10_payload_never_none ⟨.little, 0⟩ (initState ⟨.little, 0⟩) 0
      { flags := 0, payload := some [] } 0).2 (by norm_num)⟩⟩

/-! ## Claim C4 -/

theorem unescape_write_state (st : LinkState) (b : Nat) :
    (unescape_write st b).state = st.state := by
  unfold unescape_write unescape_adjust
  split
  · split
    · rfl
    · split <;> rfl
  · rfl

/-- C4: when the machine completes the 5 logical header bytes and the header
checksum does not match, or the declared length exceeds max_payload_length,
no frame is emitted, the cursor resets to 0, and the machine returns to
preamble seeking; `_read_byte` stays total, so subsequent bytes keep being
consumed. -/
theorem c4_header_invalid (cfg : Config) (st : LinkState) (b : Nat)
    (hstate : st.state = .waiting_for_header)
    (hu : (unescape_write st b).unescaping = false)
    (hidx : (unescape_write st b).index = 5)
    (hbad : ¬((unescape_write st b).buffer.getD 4 0 =
        checksum_header
          (unpack16 cfg.endianness ((unescape_write st b).buffer.take 2))
          (unpack16 cfg.endianness (((unescape_write st b).buffer.drop 2).take 2)) ∧
        unpack16 cfg.endianness (((unescape_write st b).buffer.drop 2).take 2) ≤
          cfg.max_payload_length)) :
    read_byte cfg st b =
      (⟨.waiting_for_preamble, (unescape_write st b).buffer, 0, false⟩, none) := by
  unfold read_byte
  rw [if_neg (by simp [hu])]
  have hs : (unescape_write st b).state = MachineState.waiting_for_header := by
    rw [unescape_write_state, hstate]
  unfold check_step
  rw [hs]
  dsimp only
  rw [if_pos (by rw [hidx, LEN_HEADER_eq])]
  rw [if_neg hbad]
  simp [hu]

/-- Witness for C4: after the preamble and four zero header bytes, a fifth
header byte of 1 makes the stored checksum 1 differ from the computed
checksum 0; the machine resets to preamble seeking and emits nothing. -/
theorem c4_header_invalid_witness :
    ((read_bytes ⟨.little, 0⟩ (initState ⟨.little, 0⟩)
        [85, 170, 85, 170, 0, 0, 0, 0]).1.state = MachineState.waiting_for_header ∧
     (unescape_write (read_bytes ⟨.little, 0⟩ (initState ⟨.little, 0⟩)
        [85, 170, 85, 170, 0, 0, 0, 0]).1 1).unescaping = false ∧
     (unescape_write (read_bytes ⟨.little, 0⟩ (initState ⟨.little, 0⟩)
        [85, 170, 85, 170, 0, 0, 0, 0]).1 1).index = 5) ∧
    read_byte ⟨.little, 0⟩
        (read_bytes ⟨.little, 0⟩ (initState ⟨.little, 0⟩) [85, 170, 85, 170, 0, 0, 0, 0]).1 1 =
      (⟨.waiting_for_preamble,
        (unescape_write (read_bytes ⟨.little, 0⟩ (initState ⟨.little, 0⟩)
          [85, 170, 85, 170, 0, 0, 0, 0]).1 1).buffer, 0, false⟩, none) :=
  ⟨⟨by decide, by decide, by decide⟩,
   c4_header_invalid ⟨.little, 0⟩ _ 1 (by decide) (by decide) (by decide) (by decide)⟩

/-! ## Claim C6 -/

/-- C6: in the preamble-seeking state, once at least four bytes are buffered,
the last four buffered bytes are read as a 32-bit word in the configured
endianness; on a preamble match the cursor resets to 0 and the state becomes
header reading; otherwise, exactly when the cursor has reached the full
buffer capacity max_payload_length + LEN_HEADER + LEN_BODY, the last four
bytes are copied to the buffer front with the cursor set to 4; in every
other case the cursor simply advances and the state is unchanged. -/
theorem c6_preamble_seek (cfg : Config) (st : LinkState) (b : Nat)
    (hstate : st.state = .waiting_for_preamble)
    (hu : st.unescaping = false)
    (h4 : 4 ≤ st.index + 1) :
    (unpack32 cfg.endianness
        (((st.buffer.set st.index b).drop (st.index + 1 - 4)).take 4) = PREAMBLE →
      read_byte cfg st b =
        (⟨.waiting_for_header, st.buffer.set st.index b, 0, false⟩, none)) ∧
    (unpack32 cfg.endianness
        (((st.buffer.set st.index b).drop (st.index + 1 - 4)).take 4) ≠ PREAMBLE →
      st.index + 1 = cfg.max_payload_length + LEN_HEADER + LEN_BODY →
      read_byte cfg st b =
        (⟨.waiting_for_preamble,
          (st.buffer.set st.index b).drop ((st.buffer.set st.index b).length - 4) ++
            (st.buffer.set st.index b).drop 4, 4, false⟩, none)) ∧
    (unpack32 cfg.endianness
        (((st.buffer.set st.index b).drop (st.index + 1 - 4)).take 4) ≠ PREAMBLE →
      st.index + 1 ≠ cfg.max_payload_length + LEN_HEADER + LEN_BODY →
      read_byte cfg st b =
        (⟨.waiting_for_preamble, st.buffer.set st.index b, st.index + 1, false⟩, none)) := by
  rw [read_byte_preamble_state cfg st b hstate hu]
  unfold check_step
  rw [hstate]
  dsimp only
  rw [if_pos (by rw [LEN_PREAMBLE_eq]; exact h4)]
  refine ⟨?_, ?_, ?_⟩
  · intro hmatch
    rw [if_pos hmatch]
  · intro hmiss hfull
    rw [if_neg hmiss, if_pos hfull]
  · intro hmiss hfull
    rw [if_neg hmiss, if_neg hfull]

/-- Witness for C6: four garbage bytes that do not form the preamble with
the buffer not yet full simply advance the cursor. -/
theorem c6_preamble_seek_witness :
    read_byte ⟨.little, 0⟩
        (read_bytes ⟨.little, 0⟩ (initState ⟨.little, 0⟩) [1, 2, 3]).1 4 =
      (⟨.waiting_for_preamble,
        (read_bytes ⟨.little, 0⟩ (initState ⟨.little, 0⟩) [1, 2, 3]).1.buffer.set
          (read_bytes ⟨.little, 0⟩ (initState ⟨.little, 0⟩) [1, 2, 3]).1.index 4,
        (read_bytes ⟨.little, 0⟩ (initState ⟨.little, 0⟩) [1, 2, 3]).1.index + 1,
        false⟩, none) :=
  (c6_preamble_seek ⟨.little, 0⟩ _ 4 (by decide) (by decide) (by decide)).2.2
    (by decide) (by decide)

/-! ## Claim C9 -/

theorem headerLength_set (cfg : Config) (buf : List Nat) (i b : Nat) (hi : 4 ≤ i) :
    headerLength cfg (buf.set i b) = headerLength cfg buf := by
  unfold headerLength
  congr 1
  apply List.ext_getElem?
  intro k
  simp only [List.getElem?_take, List.getElem?_drop]
  split
  · rename_i hk
    rw [List.getElem?_set_ne (by omega)]
  · rfl

theorem cap_expand (cfg : Config) :
    cfg.max_payload_length + LEN_HEADER + LEN_BODY = bufferSize cfg := rfl

theorem Inv_init (cfg : Config) : Inv cfg (initState cfg) := by
  unfold Inv initState
  dsimp only
  refine ⟨by simp, rfl, ?_⟩
  rw [bufferSize_eq]
  omega

theorem Inv_check_H (cfg : Config) (buf : List Nat) (i : Nat)
    (hlen : buf.length = bufferSize cfg) (hi : i ≤ 5) :
    Inv cfg (check_step cfg ⟨.waiting_for_header, buf, i, false⟩).1 := by
  unfold check_step
  dsimp only
  by_cases h5 : i = LEN_HEADER
  · rw [if_pos h5]
    rw [LEN_HEADER_eq] at h5
    by_cases hok : buf.getD 4 0 =
        checksum_header (unpack16 cfg.endianness (buf.take 2))
          (unpack16 cfg.endianness ((buf.drop 2).take 2)) ∧
        unpack16 cfg.endianness ((buf.drop 2).take 2) ≤ cfg.max_payload_length
    · rw [if_pos hok]
      unfold Inv headerLength
      dsimp only
      refine ⟨hlen, hok.2, fun _ => ⟨by omega, by omega⟩, fun hff => by simp at hff⟩
    · rw [if_neg hok]
      unfold Inv
      dsimp only
      exact ⟨hlen, rfl, by rw [bufferSize_eq]; omega⟩
  · rw [if_neg h5]
    rw [LEN_HEADER_eq] at h5
    unfold Inv
    dsimp only
    exact ⟨hlen, fun _ => by omega, fun hff => by simp at hff⟩

theorem Inv_check_B (cfg : Config) (buf : List Nat) (i : Nat)
    (hlen : buf.length = bufferSize cfg)
    (hL : headerLength cfg buf ≤ cfg.max_payload_length)
    (h5 : 5 ≤ i) (hup : i ≤ headerLength cfg buf + 9) :
    Inv cfg (check_step cfg ⟨.waiting_for_body, buf, i, false⟩).1 := by
  unfold headerLength at hL hup
  unfold check_step
  dsimp only
  by_cases hdone : i = unpack16 cfg.endianness ((buf.drop 2).take 2) + LEN_HEADER + LEN_CRC
  · rw [if_pos hdone]
    unfold Inv
    dsimp only
    refine ⟨hlen, rfl, ?_⟩
    rw [bufferSize_eq]
    omega
  · rw [if_neg hdone]
    rw [LEN_HEADER_eq, LEN_CRC_eq] at hdone
    unfold Inv headerLength
    dsimp only
    exact ⟨hlen, hL, fun _ => ⟨h5, by omega⟩, fun hff => by simp at hff⟩

theorem Inv_read_byte (cfg : Config) (st : LinkState) (b : Nat) (h : Inv cfg st) :
    Inv cfg (read_byte cfg st b).1 := by
  obtain ⟨s, buf, idx, u⟩ := st
  obtain ⟨hlen, hrest⟩ := h
  dsimp only at hlen
  cases s with
  | waiting_for_preamble =>
    obtain ⟨hu, hidx⟩ := hrest
    dsimp only at hu hidx
    subst hu
    rw [read_byte_preamble_state cfg _ b rfl rfl]
    unfold check_step
    dsimp only
    by_cases h4 : LEN_PREAMBLE ≤ idx + 1
    · rw [if_pos h4]
      by_cases hpre : unpack32 cfg.endianness
          (((buf.set idx b).drop (idx + 1 - 4)).take 4) = PREAMBLE
      · rw [if_pos hpre]
        unfold Inv
        dsimp only
        exact ⟨by simpa using hlen, fun _ => by omega, fun hff => by simp at hff⟩
      · rw [if_neg hpre]
        by_cases hfull : idx + 1 = cfg.max_payload_length + LEN_HEADER + LEN_BODY
        · rw [if_pos hfull]
          unfold Inv
          dsimp only
          refine ⟨?_, rfl, ?_⟩
          · simp only [List.length_append, List.length_drop, List.length_set, hlen]
            rw [bufferSize_eq]
            omega
          · rw [bufferSize_eq]
            omega
        · rw [if_neg hfull]
          rw [cap_expand] at hfull
          unfold Inv
          dsimp only
          exact ⟨by simpa using hlen, rfl, by omega⟩
    · rw [if_neg h4]
      rw [LEN_PREAMBLE_eq] at h4
      unfold Inv
      dsimp only
      exact ⟨by simpa using hlen, rfl, by rw [bufferSize_eq]; omega⟩
  | waiting_for_header =>
    obtain ⟨h1, h2⟩ := hrest
    dsimp only at h1 h2
    cases u with
    | false =>
      have hidx4 : idx ≤ 4 := h1 rfl
      by_cases hbe : b = ESCAPE
      · subst hbe
        rw [read_byte_escape_set cfg _ (Or.inl rfl) rfl]
        unfold Inv
        dsimp only
        exact ⟨by simpa using hlen, fun hff => by simp at hff,
          fun _ => ⟨by omega, by omega⟩⟩
      · rw [read_byte_plain cfg _ b (Or.inl rfl) rfl hbe]
        dsimp only
        exact Inv_check_H cfg _ _ (by simpa using hlen) (by omega)
    | true =>
      obtain ⟨hge, hle⟩ := h2 rfl
      rw [read_byte_unescape cfg _ b (Or.inl rfl) rfl]
      dsimp only
      have hii : idx - 1 + 1 = idx := by omega
      rw [hii]
      exact Inv_check_H cfg _ _ (by simpa using hlen) hle
  | waiting_for_body =>
    obtain ⟨hL, h1, h2⟩ := hrest
    dsimp only at hL h1 h2
    cases u with
    | false =>
      obtain ⟨hge, hle⟩ := h1 rfl
      by_cases hbe : b = ESCAPE
      · subst hbe
        rw [read_byte_escape_set cfg _ (Or.inr rfl) rfl]
        unfold Inv
        dsimp only
        refine ⟨by simpa using hlen, ?_, fun hff => by simp at hff, ?_⟩
        · rw [headerLength_set cfg buf idx _ (by omega)]
          exact hL
        · intro _
          rw [headerLength_set cfg buf idx _ (by omega)]
          exact ⟨by omega, by omega⟩
      · rw [read_byte_plain cfg _ b (Or.inr rfl) rfl hbe]
        dsimp only
        refine Inv_check_B cfg _ _ (by simpa using hlen) ?_ (by omega) ?_
        · rw [headerLength_set cfg buf idx _ (by omega)]
          exact hL
        · rw [headerLength_set cfg buf idx _ (by omega)]
          omega
    | true =>
      obtain ⟨hge, hle⟩ := h2 rfl
      rw [read_byte_unescape cfg _ b (Or.inr rfl) rfl]
      dsimp only
      have hii : idx - 1 + 1 = idx := by omega
      rw [hii]
      refine Inv_check_B cfg _ _ (by simpa using hlen) ?_ (by omega) ?_
      · rw [headerLength_set cfg buf (idx - 1) _ (by omega)]
        exact hL
      · rw [headerLength_set cfg buf (idx - 1) _ (by omega)]
        omega

theorem Inv_read_bytes (cfg : Config) (bs : List Nat) :
    ∀ st, Inv cfg st → Inv cfg (read_bytes cfg st bs).1 := by
  induction bs with
  | nil => intro st h; exact h
  | cons b rest ih =>
      intro st h
      exact ih _ (Inv_read_byte cfg st b h)

theorem Inv_index_le (cfg : Config) (st : LinkState) (h : Inv cfg st) :
    st.index ≤ bufferSize cfg := by
  obtain ⟨s, buf, idx, u⟩ := st
  obtain ⟨hlen, hrest⟩ := h
  cases s with
  | waiting_for_preamble =>
      obtain ⟨hu, hidx⟩ := hrest
      dsimp only at hidx ⊢
      omega
  | waiting_for_header =>
      obtain ⟨h1, h2⟩ := hrest
      dsimp only
      cases u with
      | false =>
          have h14 := h1 rfl
          dsimp only at h14
          rw [bufferSize_eq]
          omega
      | true =>
          have h25 := h2 rfl
          dsimp only at h25
          rw [bufferSize_eq]
          omega
  | waiting_for_body =>
      obtain ⟨hL, h1, h2⟩ := hrest
      dsimp only at hL h1 h2 ⊢
      cases u with
      | false =>
          have h14 := h1 rfl
          rw [bufferSize_eq]
          omega
      | true =>
          have h25 := h2 rfl
          rw [bufferSize_eq]
          omega

theorem write_index_of_not_unescaping (st : LinkState) (b : Nat)
    (hu : st.unescaping = false) : write_index st b = st.index := by
  unfold write_index unescape_adjust
  split
  · rw [hu]
    simp only [Bool.false_eq_true, if_false]
    split <;> rfl
  · rfl

theorem write_index_of_unescaping (st : LinkState) (b : Nat)
    (hstate : st.state = .waiting_for_header ∨ st.state = .waiting_for_body)
    (hu : st.unescaping = true) : write_index st b = st.index - 1 := by
  unfold write_index unescape_adjust
  rw [if_pos hstate, if_pos hu]

theorem write_index_lt (cfg : Config) (st : LinkState) (b : Nat) (h : Inv cfg st) :
    write_index st b < bufferSize cfg := by
  obtain ⟨s, buf, idx, u⟩ := st
  obtain ⟨hlen, hrest⟩ := h
  cases s with
  | waiting_for_preamble =>
      obtain ⟨hu, hidx⟩ := hrest
      dsimp only at hu hidx
      rw [write_index_of_not_unescaping _ _ hu]
      dsimp only
      omega
  | waiting_for_header =>
      obtain ⟨h1, h2⟩ := hrest
      cases u with
      | false =>
          have h14 := h1 rfl
          dsimp only at h14
          rw [write_index_of_not_unescaping _ _ rfl]
          dsimp only
          rw [bufferSize_eq]
          omega
      | true =>
          have h25 := h2 rfl
          dsimp only at h25
          rw [write_index_of_unescaping _ _ (Or.inl rfl) rfl]
          dsimp only
          rw [bufferSize_eq]
          omega
  | waiting_for_body =>
      obtain ⟨hL, h1, h2⟩ := hrest
      dsimp only at hL
      cases u with
      | false =>
          have h14 := h1 rfl
          dsimp only at h14
          rw [write_index_of_not_unescaping _ _ rfl]
          dsimp only
          unfold headerLength at hL h14
          rw [bufferSize_eq]
          omega
      | true =>
          have h24 := h2 rfl
          dsimp only at h24
          rw [write_index_of_unescaping _ _ (Or.inr rfl) rfl]
          dsimp only
          unfold headerLength at hL h24
          rw [bufferSize_eq]
          omega

/-- C9: starting from the initial state, after any sequence of `_read_byte`
calls the cursor stays within the preallocated buffer capacity
max_payload_length + LEN_HEADER + LEN_BODY, and the next buffer write
`self.buffer[self.index]` — for any incoming byte, in any state, including
while unescaping and after buffer-full slides — lands at an index strictly
below that capacity. -/
theorem c9_buffer_bounds (cfg : Config) (bytes : List Nat) :
    (read_bytes cfg (initState cfg) bytes).1.index ≤ bufferSize cfg ∧
    ∀ b, write_index (read_bytes cfg (initState cfg) bytes).1 b < bufferSize cfg := by
  have h := Inv_read_bytes cfg bytes (initState cfg) (Inv_init cfg)
  exact ⟨Inv_index_le cfg _ h, fun b => write_index_lt cfg _ b h⟩

/-! ## Claim C3 -/

/-- C3: the legacy module's configurable damaged-frame policy is broken in
the code: `TinyLink.__init__` accepts `ignore_damaged` but never assigns it,
so completing a body whose frame CRC mismatches evaluates the missing
attribute `self.ignore_damaged` and raises AttributeError instead of either
discarding the frame or surfacing a DamagedFrame. Concretely: a valid
preamble and header for a 1-byte payload followed by a wrong CRC makes the
legacy read raise. -/
theorem c3_damaged_frame_attribute_error :
    legacy.lread_list (legacy.linit .little 4)
        ([85, 170, 85, 170] ++ [0, 0, 1, 0, 1] ++ [7] ++ [0, 0, 0, 0]) =
      .error .attributeError := by rfl

end TinyLink
